import Mathlib

/-!
A shallow embedding of the subscription-routing core of the tendermint-rs
RPC client (`src/rpc/src/client/subscription.rs`), together with theorems
settling the specified properties of `SubscriptionRouter`, `SubscriptionId`
and the JSON-RPC ID conversions.

Rust `HashMap`s are embedded as association lists with replace-on-insert
semantics; channel senders (`ChannelTx`) are embedded as abstract channel
identifiers whose receiver liveness is supplied externally, since a send
succeeds exactly when the receiver half is still alive.
-/

namespace TendermintRPC

/-! ## Association maps (embedding of `std::collections::HashMap`) -/

abbrev HMap (K V : Type) : Type := List (K × V)

namespace HMap

variable {K V : Type}

/-- `HashMap::get`: the value stored under key `k`, if any. -/
def get [DecidableEq K] (k : K) : HMap K V → Option V
  | [] => none
  | p :: m => if p.1 = k then some p.2 else get k m

/-- `HashMap::remove` (the map after removal; the removed value is
recovered separately via `get`). -/
def remove [DecidableEq K] (k : K) (m : HMap K V) : HMap K V :=
  m.filter (fun p => decide (p.1 ≠ k))

/-- `HashMap::insert`: replace-on-insert. -/
def insert [DecidableEq K] (k : K) (v : V) (m : HMap K V) : HMap K V :=
  (k, v) :: remove k m

/-- `HashMap::contains_key`. -/
def contains_key [DecidableEq K] (k : K) (m : HMap K V) : Bool :=
  m.any (fun p => decide (p.1 = k))

end HMap

/-! ## Identifiers, errors, events, channels -/

/-- `SubscriptionId(String)`: a newtype over the textual form of the ID. -/
structure SubscriptionId where
  val : String
deriving DecidableEq

/-- `impl From<&str> for SubscriptionId` (named `from_string` in the spec). -/
def SubscriptionId.from_string (s : String) : SubscriptionId := ⟨s⟩

/-- `impl Display for SubscriptionId`: writes the inner string. -/
def SubscriptionId.render (id : SubscriptionId) : String := id.val

/-- Modelled from the spec: the JSON-RPC correlation ID type `Id`
(src/rpc/src/id.rs is not included under src/). Per the wire contract,
correlation IDs may be strings, integers, or absent; exactly the
variants `Id::Str`, `Id::Num` and `Id::None` are matched by the
conversion code in src/rpc/src/client/subscription.rs. -/
inductive Id where
  | Str (s : String)
  | Num (i : Int)
  | None
deriving DecidableEq

/-- Modelled from the spec: the error type (src/rpc/src/error.rs is not
included under src/); only the `client_internal_error` constructor is
used by the subscription code. -/
inductive Error where
  | client_internal_error (msg : String)
deriving DecidableEq

/-- `crate::Result`. -/
abbrev Result (α : Type) : Type := Except Error α

/-- Modelled from the spec: `Event` (src/rpc/src/event.rs is not included
under src/): an opaque payload with at minimum a `query` field of string
type; the router routes solely on `query`, so the rest of the payload is
abstracted into an opaque `data` component. -/
structure Event where
  query : String
  data : Nat
deriving DecidableEq

/-- Modelled from the spec: `ChannelTx` (src/rpc/src/client/sync.rs is not
included under src/): the sender half of an async channel, embedded as an
abstract channel identifier. Whether the receiver half is still alive is
supplied externally as a predicate on channel identifiers. -/
structure ChannelTx where
  ch : Nat
deriving DecidableEq

/-- Modelled from the spec: `ChannelTx::send` succeeds exactly when the
receiver half is still alive; on a dropped receiver it fails with an
internal error. The message payload does not influence the outcome. -/
def ChannelTx.send (alive : Nat → Bool) (tx : ChannelTx) : Result Unit :=
  if alive tx.ch then Except.ok () else
    Except.error (Error.client_internal_error "failed to send message to channel")

/-! ## Conversions between `SubscriptionId` and the JSON-RPC `Id` -/

/-- `impl Into<Id> for SubscriptionId`: `Id::Str(self.0)`. -/
def SubscriptionId.into_id (id : SubscriptionId) : Id := Id.Str id.val

/-- `impl TryInto<SubscriptionId> for Id`. -/
def Id.try_into : Id → Result SubscriptionId
  | Id.Str s => Except.ok ⟨s⟩
  | Id.Num i => Except.ok ⟨toString i⟩
  | Id.None => Except.error (Error.client_internal_error
      "cannot convert an empty JSON-RPC ID into a subscription ID")

/-! ## Router state -/

/-- `struct PendingSubscribe`. -/
structure PendingSubscribe where
  id : SubscriptionId
  query : String
  event_tx : ChannelTx
  result_tx : ChannelTx
deriving DecidableEq

/-- `struct PendingUnsubscribe`. -/
structure PendingUnsubscribe where
  id : SubscriptionId
  query : String
  result_tx : ChannelTx
deriving DecidableEq

/-- `enum SubscriptionState`. -/
inductive SubscriptionState where
  | Pending
  | Active
  | Cancelling
  | NotFound
deriving DecidableEq

/-- `struct SubscriptionRouter`. -/
structure SubscriptionRouter where
  subscriptions : HMap String (HMap SubscriptionId ChannelTx)
  pending_subscribe : HMap String PendingSubscribe
  pending_unsubscribe : HMap String PendingUnsubscribe
deriving DecidableEq

/-- `impl Default for SubscriptionRouter`. -/
def SubscriptionRouter.default : SubscriptionRouter := ⟨[], [], []⟩

/-- `SubscriptionRouter::publish`. Returns `none` exactly when the
`.unwrap()` on the re-lookup of `ev.query` would panic; otherwise the
updated router together with the list of successful sends (channel
identifier paired with the enqueued `Ok(ev.clone())` value). A sink whose
receiver is gone fails its send and is collected into `disconnected`,
whose entries are then removed from the inner map for `ev.query`. -/
def SubscriptionRouter.publish (alive : Nat → Bool) (r : SubscriptionRouter)
    (ev : Event) : Option (SubscriptionRouter × List (Nat × Result Event)) :=
  match HMap.get ev.query r.subscriptions with
  | none => some (r, [])
  | some subs_for_query =>
    let disconnected : List SubscriptionId :=
      (subs_for_query.filter (fun p => ! alive p.2.ch)).map (fun p => p.1)
    let delivered : List (Nat × Result Event) :=
      (subs_for_query.filter (fun p => alive p.2.ch)).map
        (fun p => (p.2.ch, Except.ok ev))
    match HMap.get ev.query r.subscriptions with
    | none => none
    | some m2 =>
      let m3 := disconnected.foldl (fun m sid => HMap.remove sid m) m2
      some ({ r with subscriptions := HMap.insert ev.query m3 r.subscriptions },
        delivered)

/-- `SubscriptionRouter::add`. -/
def SubscriptionRouter.add (r : SubscriptionRouter) (id : SubscriptionId)
    (query : String) (event_tx : ChannelTx) : SubscriptionRouter :=
  let subs_for_query : HMap SubscriptionId ChannelTx :=
    match HMap.get query r.subscriptions with
    | some s => s
    | none => []
  { r with subscriptions :=
      HMap.insert query (HMap.insert id event_tx subs_for_query) r.subscriptions }

/-- `SubscriptionRouter::pending_add`. -/
def SubscriptionRouter.pending_add (r : SubscriptionRouter) (req_id : String)
    (subs_id : SubscriptionId) (query : String) (event_tx result_tx : ChannelTx) :
    SubscriptionRouter :=
  { r with pending_subscribe :=
      HMap.insert req_id ⟨subs_id, query, event_tx, result_tx⟩ r.pending_subscribe }

/-- `SubscriptionRouter::confirm_add`: removes the pending entry, installs
the subscription via `add`, then reports success on `result_tx`. -/
def SubscriptionRouter.confirm_add (alive : Nat → Bool) (r : SubscriptionRouter)
    (req_id : String) : SubscriptionRouter × Result Unit :=
  match HMap.get req_id r.pending_subscribe with
  | some ps =>
    let r1 := { r with pending_subscribe := HMap.remove req_id r.pending_subscribe }
    let r2 := r1.add ps.id ps.query ps.event_tx
    (r2, ChannelTx.send alive ps.result_tx)
  | none => (r, Except.ok ())

/-- `SubscriptionRouter::cancel_add`: removes the pending entry and reports
the supplied error on `result_tx`, mapping a send failure to an internal
error naming the subscription. -/
def SubscriptionRouter.cancel_add (alive : Nat → Bool) (r : SubscriptionRouter)
    (req_id : String) (err : Error) : SubscriptionRouter × Result Unit :=
  match HMap.get req_id r.pending_subscribe with
  | some ps =>
    let r1 := { r with pending_subscribe := HMap.remove req_id r.pending_subscribe }
    match ChannelTx.send alive ps.result_tx with
    | Except.ok _ => (r1, Except.ok ())
    | Except.error _ => (r1, Except.error (Error.client_internal_error
        ("failed to communicate result of pending subscription with ID: " ++ ps.id.val)))
  | none => (r, Except.ok ())

/-- `SubscriptionRouter::remove`. -/
def SubscriptionRouter.remove (r : SubscriptionRouter) (id : SubscriptionId)
    (query : String) : SubscriptionRouter :=
  match HMap.get query r.subscriptions with
  | some s =>
    { r with subscriptions := HMap.insert query (HMap.remove id s) r.subscriptions }
  | none => r

/-- `SubscriptionRouter::pending_remove`. -/
def SubscriptionRouter.pending_remove (r : SubscriptionRouter) (req_id : String)
    (subs_id : SubscriptionId) (query : String) (result_tx : ChannelTx) :
    SubscriptionRouter :=
  { r with pending_unsubscribe :=
      HMap.insert req_id ⟨subs_id, query, result_tx⟩ r.pending_unsubscribe }

/-- `SubscriptionRouter::confirm_remove`. -/
def SubscriptionRouter.confirm_remove (alive : Nat → Bool) (r : SubscriptionRouter)
    (req_id : String) : SubscriptionRouter × Result Unit :=
  match HMap.get req_id r.pending_unsubscribe with
  | some pu =>
    let r1 := { r with pending_unsubscribe := HMap.remove req_id r.pending_unsubscribe }
    let r2 := r1.remove pu.id pu.query
    (r2, ChannelTx.send alive pu.result_tx)
  | none => (r, Except.ok ())

/-- `SubscriptionRouter::cancel_remove`. -/
def SubscriptionRouter.cancel_remove (alive : Nat → Bool) (r : SubscriptionRouter)
    (req_id : String) (err : Error) : SubscriptionRouter × Result Unit :=
  match HMap.get req_id r.pending_unsubscribe with
  | some pu =>
    let r1 := { r with pending_unsubscribe := HMap.remove req_id r.pending_unsubscribe }
    (r1, ChannelTx.send alive pu.result_tx)
  | none => (r, Except.ok ())

/-- `SubscriptionRouter::is_active`. -/
def SubscriptionRouter.is_active (r : SubscriptionRouter) (id : SubscriptionId) :
    Bool :=
  r.subscriptions.any (fun p => HMap.contains_key id p.2)

/-- `SubscriptionRouter::subscription_state`. -/
def SubscriptionRouter.subscription_state (r : SubscriptionRouter)
    (req_id : String) : SubscriptionState :=
  if HMap.contains_key req_id r.pending_subscribe then SubscriptionState.Pending
  else if HMap.contains_key req_id r.pending_unsubscribe then SubscriptionState.Cancelling
  else if r.is_active (SubscriptionId.from_string req_id) then SubscriptionState.Active
  else SubscriptionState.NotFound

/-! ## Operation sequences over the router -/

/-- One router operation, with the receiver-liveness snapshot in effect
while it runs (liveness may change between quiescent points). -/
inductive RouterOp where
  | add (id : SubscriptionId) (query : String) (event_tx : ChannelTx)
  | remove (id : SubscriptionId) (query : String)
  | pending_add (req_id : String) (subs_id : SubscriptionId) (query : String)
      (event_tx result_tx : ChannelTx)
  | confirm_add (alive : Nat → Bool) (req_id : String)
  | cancel_add (alive : Nat → Bool) (req_id : String) (err : Error)
  | pending_remove (req_id : String) (subs_id : SubscriptionId) (query : String)
      (result_tx : ChannelTx)
  | confirm_remove (alive : Nat → Bool) (req_id : String)
  | cancel_remove (alive : Nat → Bool) (req_id : String) (err : Error)
  | publish (alive : Nat → Bool) (ev : Event)

/-- The state transition a single router operation performs. -/
def RouterOp.apply (op : RouterOp) (r : SubscriptionRouter) : SubscriptionRouter :=
  match op with
  | RouterOp.add id q tx => r.add id q tx
  | RouterOp.remove id q => r.remove id q
  | RouterOp.pending_add req sid q etx rtx => r.pending_add req sid q etx rtx
  | RouterOp.confirm_add alive req => (SubscriptionRouter.confirm_add alive r req).1
  | RouterOp.cancel_add alive req err => (SubscriptionRouter.cancel_add alive r req err).1
  | RouterOp.pending_remove req sid q rtx => r.pending_remove req sid q rtx
  | RouterOp.confirm_remove alive req => (SubscriptionRouter.confirm_remove alive r req).1
  | RouterOp.cancel_remove alive req err => (SubscriptionRouter.cancel_remove alive r req err).1
  | RouterOp.publish alive ev =>
    match SubscriptionRouter.publish alive r ev with
    | some (r2, _) => r2
    | none => r

/-- State reached after a sequence of router operations. -/
def RouterOp.run (ops : List RouterOp) (r : SubscriptionRouter) : SubscriptionRouter :=
  ops.foldl (fun s op => RouterOp.apply op s) r

/-- A given `SubscriptionId` is a key of at most one inner map of the
active subscriptions table. -/
def uniqueIds (r : SubscriptionRouter) : Prop :=
  ∀ q1 q2 m1 m2 sid, HMap.get q1 r.subscriptions = some m1 →
    HMap.get q2 r.subscriptions = some m2 →
    HMap.contains_key sid m1 = true → HMap.contains_key sid m2 = true → q1 = q2

/-- An operation respects the query assignment `qOf` when every direct or
pending installation of a subscription id uses the query assigned to it. -/
def RouterOp.consistentWith (qOf : SubscriptionId → String) : RouterOp → Prop
  | RouterOp.add id q _ => q = qOf id
  | RouterOp.pending_add _ sid q _ _ => q = qOf sid
  | _ => True

/-- Invariant on the active table: every listed id sits under its
assigned query. -/
def inv1 (qOf : SubscriptionId → String)
    (subs : HMap String (HMap SubscriptionId ChannelTx)) : Prop :=
  ∀ q m sid, HMap.get q subs = some m → HMap.contains_key sid m = true → q = qOf sid

/-- Invariant on the pending-subscribe table: every pending entry carries
the query assigned to its id. -/
def inv2 (qOf : SubscriptionId → String)
    (tbl : HMap String PendingSubscribe) : Prop :=
  ∀ req ps, HMap.get req tbl = some ps → ps.query = qOf ps.id

/-- Combined router invariant under a query assignment. -/
def RouterInv (qOf : SubscriptionId → String) (r : SubscriptionRouter) : Prop :=
  inv1 qOf r.subscriptions ∧ inv2 qOf r.pending_subscribe

/-- Functional update of the `subscriptions` field (the in-place mutation
performed through `get_mut` in the Rust code). -/
def SubscriptionRouter.set_subscriptions (r : SubscriptionRouter)
    (s : HMap String (HMap SubscriptionId ChannelTx)) : SubscriptionRouter :=
  { r with subscriptions := s }

/-! ## Map lemmas -/

namespace HMap

theorem get_insert_self [DecidableEq K] (k : K) (v : V) (m : HMap K V) :
    get k (insert k v m) = some v := by
  simp [insert, get]

theorem get_remove [DecidableEq K] (k k2 : K) (m : HMap K V) :
    get k2 (remove k m) = if k = k2 then none else get k2 m := by
  induction m with
  | nil => simp [remove, get]
  | cons p m ih =>
    by_cases h : p.1 = k
    · have hd : remove k (p :: m) = remove k m := by
        simp [remove, List.filter_cons, h]
      rw [hd, ih]
      by_cases h2 : k = k2
      · simp [h2]
      · have h3 : ¬ p.1 = k2 := by rw [h]; exact h2
        simp [get, h2, h3]
    · have hd : remove k (p :: m) = p :: remove k m := by
        simp [remove, List.filter_cons, h]
      rw [hd]
      by_cases h2 : p.1 = k2
      · have h3 : ¬ k = k2 := fun hh => h (by rw [hh]; exact h2)
        simp [get, h2, h3]
      · simp [get, h2, ih]

theorem get_insert [DecidableEq K] (k k2 : K) (v : V) (m : HMap K V) :
    get k2 (insert k v m) = if k = k2 then some v else get k2 m := by
  by_cases h : k = k2
  · simp [insert, get, h]
  · simp [insert, get, h, get_remove]

theorem contains_key_iff [DecidableEq K] {k : K} {m : HMap K V} :
    contains_key k m = true ↔ ∃ v, get k m = some v := by
  induction m with
  | nil => simp [contains_key, get]
  | cons p m ih =>
    by_cases h : p.1 = k
    · simp [contains_key, get, h]
    · rw [show contains_key k (p :: m) = contains_key k m from by
        simp [contains_key, h]]
      rw [show get k (p :: m) = get k m from by simp [get, h]]
      exact ih

theorem contains_key_remove_imp [DecidableEq K] {k j : K} {m : HMap K V}
    (h : contains_key k (remove j m) = true) : contains_key k m = true := by
  simp only [contains_key, remove, List.any_eq_true, List.mem_filter,
    decide_eq_true_eq] at h ⊢
  obtain ⟨p, ⟨hp, _⟩, hk⟩ := h
  exact ⟨p, hp, hk⟩

theorem contains_key_remove_false [DecidableEq K] {k j : K} {m : HMap K V}
    (h : contains_key k m = false) : contains_key k (remove j m) = false := by
  cases hc : contains_key k (remove j m) with
  | false => rfl
  | true => rw [contains_key_remove_imp hc] at h; exact absurd h (by simp)

theorem contains_key_remove_self [DecidableEq K] (k : K) (m : HMap K V) :
    contains_key k (remove k m) = false := by
  simp only [contains_key, remove]
  rw [List.any_eq_false]
  intro p hp
  rw [List.mem_filter] at hp
  simp only [decide_eq_true_eq] at hp
  simpa using hp.2

theorem contains_key_insert_imp [DecidableEq K] {k j : K} {v : V} {m : HMap K V}
    (h : contains_key k (insert j v m) = true) :
    k = j ∨ contains_key k m = true := by
  simp only [insert, contains_key, List.any_cons, Bool.or_eq_true,
    decide_eq_true_eq] at h
  rcases h with h | h
  · exact Or.inl h.symm
  · exact Or.inr (contains_key_remove_imp h)

theorem contains_key_foldl_remove_of_false [DecidableEq K] {k : K}
    (l : List K) (m : HMap K V) (h : contains_key k m = false) :
    contains_key k (l.foldl (fun m2 j => remove j m2) m) = false := by
  induction l generalizing m with
  | nil => exact h
  | cons a l ih => exact ih (remove a m) (contains_key_remove_false h)

theorem contains_key_foldl_remove_of_mem [DecidableEq K] {k : K}
    (l : List K) (m : HMap K V) (h : k ∈ l) :
    contains_key k (l.foldl (fun m2 j => remove j m2) m) = false := by
  induction l generalizing m with
  | nil => cases h
  | cons a l ih =>
    rcases List.mem_cons.mp h with h | h
    · subst h
      by_cases h2 : k ∈ l
      · exact ih (remove k m) h2
      · exact contains_key_foldl_remove_of_false l (remove k m)
          (contains_key_remove_self k m)
    · exact ih (remove a m) h

theorem contains_key_foldl_remove_imp [DecidableEq K] {k : K}
    (l : List K) (m : HMap K V)
    (h : contains_key k (l.foldl (fun m2 j => remove j m2) m) = true) :
    contains_key k m = true := by
  induction l generalizing m with
  | nil => exact h
  | cons a l ih => exact contains_key_remove_imp (ih (remove a m) h)

end HMap

/-! ## Characterizations of `publish` -/

theorem publish_eq_of_get_none (alive : Nat → Bool) (r : SubscriptionRouter)
    (ev : Event) (h : HMap.get ev.query r.subscriptions = none) :
    SubscriptionRouter.publish alive r ev = some (r, []) := by
  simp [SubscriptionRouter.publish, h]

theorem publish_eq_of_get_some (alive : Nat → Bool) (r : SubscriptionRouter)
    (ev : Event) (m : HMap SubscriptionId ChannelTx)
    (h : HMap.get ev.query r.subscriptions = some m) :
    SubscriptionRouter.publish alive r ev =
      some (r.set_subscriptions (HMap.insert ev.query
          (((m.filter (fun p => ! alive p.2.ch)).map (fun p => p.1)).foldl
            (fun m2 sid => HMap.remove sid m2) m) r.subscriptions),
        (m.filter (fun p => alive p.2.ch)).map (fun p => (p.2.ch, Except.ok ev))) := by
  simp [SubscriptionRouter.publish, SubscriptionRouter.set_subscriptions, h]

/-! ## Preservation of the per-query invariant -/

theorem inv1_insert (qOf : SubscriptionId → String)
    {subs : HMap String (HMap SubscriptionId ChannelTx)} (h1 : inv1 qOf subs)
    {q : String} {newm : HMap SubscriptionId ChannelTx}
    (hnew : ∀ sid, HMap.contains_key sid newm = true → q = qOf sid) :
    inv1 qOf (HMap.insert q newm subs) := by
  intro q2 m2 sid hg hc
  rw [HMap.get_insert] at hg
  by_cases h : q = q2
  · rw [if_pos h] at hg
    injection hg with hg
    subst hg
    exact h ▸ hnew sid hc
  · rw [if_neg h] at hg
    exact h1 q2 m2 sid hg hc

theorem inv2_insert (qOf : SubscriptionId → String)
    {tbl : HMap String PendingSubscribe} (h2 : inv2 qOf tbl)
    {req : String} {ps : PendingSubscribe} (hps : ps.query = qOf ps.id) :
    inv2 qOf (HMap.insert req ps tbl) := by
  intro req2 ps2 hg
  rw [HMap.get_insert] at hg
  by_cases h : req = req2
  · rw [if_pos h] at hg
    injection hg with hg
    subst hg
    exact hps
  · rw [if_neg h] at hg
    exact h2 req2 ps2 hg

theorem inv2_remove (qOf : SubscriptionId → String)
    {tbl : HMap String PendingSubscribe} (h2 : inv2 qOf tbl) (req : String) :
    inv2 qOf (HMap.remove req tbl) := by
  intro req2 ps hg
  rw [HMap.get_remove] at hg
  by_cases h : req = req2
  · rw [if_pos h] at hg
    cases hg
  · rw [if_neg h] at hg
    exact h2 req2 ps hg

theorem inv_add (qOf : SubscriptionId → String) (r : SubscriptionRouter)
    (h : RouterInv qOf r) (id : SubscriptionId) (q : String) (tx : ChannelTx)
    (hq : q = qOf id) : RouterInv qOf (r.add id q tx) := by
  refine ⟨?_, h.2⟩
  have step : ∀ inner : HMap SubscriptionId ChannelTx,
      (∀ sid, HMap.contains_key sid inner = true → q = qOf sid) →
      inv1 qOf (HMap.insert q (HMap.insert id tx inner) r.subscriptions) := by
    intro inner hinner
    apply inv1_insert qOf h.1
    intro sid hc
    rcases HMap.contains_key_insert_imp hc with hs | hs
    · subst hs
      exact hq
    · exact hinner sid hs
  unfold SubscriptionRouter.add
  cases hg : HMap.get q r.subscriptions with
  | none =>
    simp only [hg]
    exact step [] (by intro sid hc; simp [HMap.contains_key] at hc)
  | some s =>
    simp only [hg]
    exact step s (fun sid hc => h.1 q s sid hg hc)

theorem inv_remove (qOf : SubscriptionId → String) (r : SubscriptionRouter)
    (h : RouterInv qOf r) (id : SubscriptionId) (q : String) :
    RouterInv qOf (r.remove id q) := by
  unfold SubscriptionRouter.remove
  cases hg : HMap.get q r.subscriptions with
  | none => exact h
  | some s =>
    simp only [hg]
    refine ⟨?_, h.2⟩
    apply inv1_insert qOf h.1
    intro sid hc
    exact h.1 q s sid hg (HMap.contains_key_remove_imp hc)

theorem inv_pending_add (qOf : SubscriptionId → String) {r : SubscriptionRouter}
    (h : RouterInv qOf r) (req : String) (sid : SubscriptionId) (q : String)
    (etx rtx : ChannelTx) (hq : q = qOf sid) :
    RouterInv qOf (r.pending_add req sid q etx rtx) :=
  ⟨h.1, inv2_insert qOf h.2 hq⟩

theorem inv_confirm_add (qOf : SubscriptionId → String) {r : SubscriptionRouter}
    (h : RouterInv qOf r) (alive : Nat → Bool) (req : String) :
    RouterInv qOf (SubscriptionRouter.confirm_add alive r req).1 := by
  unfold SubscriptionRouter.confirm_add
  cases hg : HMap.get req r.pending_subscribe with
  | none => exact h
  | some ps =>
    simp only [hg]
    exact inv_add qOf { r with pending_subscribe := HMap.remove req r.pending_subscribe }
      ⟨h.1, inv2_remove qOf h.2 req⟩ ps.id ps.query ps.event_tx (h.2 req ps hg)

theorem inv_cancel_add (qOf : SubscriptionId → String) {r : SubscriptionRouter}
    (h : RouterInv qOf r) (alive : Nat → Bool) (req : String) (err : Error) :
    RouterInv qOf (SubscriptionRouter.cancel_add alive r req err).1 := by
  unfold SubscriptionRouter.cancel_add
  cases hg : HMap.get req r.pending_subscribe with
  | none => exact h
  | some ps =>
    simp only [hg]
    cases hsend : ChannelTx.send alive ps.result_tx with
    | ok u => exact ⟨h.1, inv2_remove qOf h.2 req⟩
    | error e => exact ⟨h.1, inv2_remove qOf h.2 req⟩

theorem inv_confirm_remove (qOf : SubscriptionId → String) {r : SubscriptionRouter}
    (h : RouterInv qOf r) (alive : Nat → Bool) (req : String) :
    RouterInv qOf (SubscriptionRouter.confirm_remove alive r req).1 := by
  unfold SubscriptionRouter.confirm_remove
  cases hg : HMap.get req r.pending_unsubscribe with
  | none => exact h
  | some pu =>
    simp only [hg]
    exact inv_remove qOf { r with pending_unsubscribe := HMap.remove req r.pending_unsubscribe }
      ⟨h.1, h.2⟩ pu.id pu.query

theorem inv_cancel_remove (qOf : SubscriptionId → String) {r : SubscriptionRouter}
    (h : RouterInv qOf r) (alive : Nat → Bool) (req : String) (err : Error) :
    RouterInv qOf (SubscriptionRouter.cancel_remove alive r req err).1 := by
  unfold SubscriptionRouter.cancel_remove
  cases hg : HMap.get req r.pending_unsubscribe with
  | none => exact h
  | some pu =>
    simp only [hg]
    exact ⟨h.1, h.2⟩

theorem inv_publish (qOf : SubscriptionId → String) {r : SubscriptionRouter}
    (h : RouterInv qOf r) (alive : Nat → Bool) (ev : Event)
    (r2 : SubscriptionRouter) (d : List (Nat × Result Event))
    (hp : SubscriptionRouter.publish alive r ev = some (r2, d)) :
    RouterInv qOf r2 := by
  cases hg : HMap.get ev.query r.subscriptions with
  | none =>
    rw [publish_eq_of_get_none alive r ev hg] at hp
    have hr2 : r2 = r := by
      injection hp with hp
      exact (congrArg Prod.fst hp).symm
    subst hr2
    exact h
  | some m =>
    rw [publish_eq_of_get_some alive r ev m hg] at hp
    have hr2 : r2 = r.set_subscriptions (HMap.insert ev.query
        (((m.filter (fun p => ! alive p.2.ch)).map (fun p => p.1)).foldl
          (fun m2 sid => HMap.remove sid m2) m) r.subscriptions) := by
      injection hp with hp
      exact (congrArg Prod.fst hp).symm
    subst hr2
    refine ⟨?_, h.2⟩
    apply inv1_insert qOf h.1
    intro sid hc
    exact h.1 ev.query m sid hg (HMap.contains_key_foldl_remove_imp _ m hc)

theorem inv_apply (qOf : SubscriptionId → String) (op : RouterOp)
    {r : SubscriptionRouter} (h : RouterInv qOf r)
    (hop : op.consistentWith qOf) : RouterInv qOf (op.apply r) := by
  cases op with
  | add id q tx => exact inv_add qOf r h id q tx hop
  | remove id q => exact inv_remove qOf r h id q
  | pending_add req sid q etx rtx => exact inv_pending_add qOf h req sid q etx rtx hop
  | confirm_add alive req => exact inv_confirm_add qOf h alive req
  | cancel_add alive req err => exact inv_cancel_add qOf h alive req err
  | pending_remove req sid q rtx => exact ⟨h.1, h.2⟩
  | confirm_remove alive req => exact inv_confirm_remove qOf h alive req
  | cancel_remove alive req err => exact inv_cancel_remove qOf h alive req err
  | publish alive ev =>
    show RouterInv qOf (RouterOp.apply (RouterOp.publish alive ev) r)
    cases hp : SubscriptionRouter.publish alive r ev with
    | none => simp only [RouterOp.apply, hp]; exact h
    | some pr =>
      simp only [RouterOp.apply, hp]
      exact inv_publish qOf h alive ev pr.1 pr.2 (by rw [hp])

theorem inv_run (qOf : SubscriptionId → String) (ops : List RouterOp)
    {r : SubscriptionRouter} (h : RouterInv qOf r)
    (hops : ∀ op ∈ ops, op.consistentWith qOf) :
    RouterInv qOf (RouterOp.run ops r) := by
  induction ops generalizing r with
  | nil => exact h
  | cons op ops ih =>
    exact ih (inv_apply qOf op h (hops op (List.mem_cons_self op ops)))
      (fun op2 h2 => hops op2 (List.mem_cons_of_mem op h2))

theorem inv_default (qOf : SubscriptionId → String) :
    RouterInv qOf SubscriptionRouter.default := by
  constructor
  · intro q m sid hg hc
    simp [SubscriptionRouter.default, HMap.get] at hg
  · intro req ps hg
    simp [SubscriptionRouter.default, HMap.get] at hg

theorem inv_implies_unique {qOf : SubscriptionId → String}
    {r : SubscriptionRouter} (h : RouterInv qOf r) : uniqueIds r := by
  intro q1 q2 m1 m2 sid hg1 hg2 hc1 hc2
  rw [h.1 q1 m1 sid hg1 hc1, h.1 q2 m2 sid hg2 hc2]

theorem is_active_add (r : SubscriptionRouter) (id : SubscriptionId)
    (q : String) (tx : ChannelTx) : (r.add id q tx).is_active id = true := by
  unfold SubscriptionRouter.add SubscriptionRouter.is_active
  simp [HMap.insert, HMap.contains_key]

/-! ## Claim theorems -/

/-- C1, counterexample: the frozen claim fails on the code. Starting from
the default router, `add` of the same subscription id under two different
queries lists it in two inner maps of the active table at a quiescent
point, so the id is not listed under at most one query. -/
theorem router_unique_id_counterexample :
    ¬ uniqueIds (RouterOp.run
      [RouterOp.add ⟨"s"⟩ "q1" ⟨0⟩, RouterOp.add ⟨"s"⟩ "q2" ⟨1⟩]
      SubscriptionRouter.default) := by
  intro h
  exact absurd
    (h "q2" "q1" [(⟨"s"⟩, ⟨1⟩)] [(⟨"s"⟩, ⟨0⟩)] ⟨"s"⟩ rfl rfl rfl rfl)
    (by decide)

/-- C1, amended: for every assignment `qOf` of one query per subscription
id, and every sequence of router operations from the default router whose
`add` and `pending_add` steps always use the assigned query of their
subscription id, at every quiescent point a given `SubscriptionId` occurs
as a key in at most one inner map of the active table. -/
theorem router_unique_id_per_query (qOf : SubscriptionId → String)
    (ops : List RouterOp) (hops : ∀ op ∈ ops, op.consistentWith qOf) :
    uniqueIds (RouterOp.run ops SubscriptionRouter.default) :=
  inv_implies_unique (inv_run qOf ops (inv_default qOf) hops)

/-- Witness for the amended C1 at a concrete operation sequence. -/
theorem router_unique_id_per_query_witness :
    uniqueIds (RouterOp.run [RouterOp.add ⟨"s"⟩ "q" ⟨0⟩]
      SubscriptionRouter.default) :=
  router_unique_id_per_query (fun _ => "q") [RouterOp.add ⟨"s"⟩ "q" ⟨0⟩]
    (by
      intro op hop
      rw [List.mem_singleton] at hop
      subst hop
      rfl)

/-- C2: when `ev.query` has no entry, `publish` leaves the router unchanged
and delivers nothing; otherwise it enqueues `Ok(ev.clone())` on exactly
those sinks under `ev.query` whose receiver is alive, every sink whose send
fails (receiver dropped) is no longer a key of the inner map for `ev.query`
at the end of the call, and a dropped sink is delivered nothing by any
subsequent publish. -/
theorem publish_fanout_spec (alive : Nat → Bool) (r : SubscriptionRouter)
    (ev : Event) :
    (HMap.get ev.query r.subscriptions = none →
      SubscriptionRouter.publish alive r ev = some (r, [])) ∧
    (∀ m, HMap.get ev.query r.subscriptions = some m →
      ∃ r2, SubscriptionRouter.publish alive r ev =
          some (r2, (m.filter (fun p => alive p.2.ch)).map
            (fun p => (p.2.ch, Except.ok ev))) ∧
        (∀ sid tx, (sid, tx) ∈ m → alive tx.ch = false →
          ∀ m2, HMap.get ev.query r2.subscriptions = some m2 →
            HMap.contains_key sid m2 = false) ∧
        (∀ tx : ChannelTx, alive tx.ch = false →
          ∀ r3 ev2 r4 d2, SubscriptionRouter.publish alive r3 ev2 = some (r4, d2) →
            ∀ x, (tx.ch, x) ∉ d2)) := by
  constructor
  · intro h
    exact publish_eq_of_get_none alive r ev h
  · intro m hg
    refine ⟨_, publish_eq_of_get_some alive r ev m hg, ?_, ?_⟩
    · intro sid tx hmem hdead m2 hg2
      simp only [SubscriptionRouter.set_subscriptions] at hg2
      rw [HMap.get_insert_self] at hg2
      injection hg2 with hg2
      subst hg2
      apply HMap.contains_key_foldl_remove_of_mem
      rw [List.mem_map]
      exact ⟨(sid, tx), List.mem_filter.mpr ⟨hmem, by simp [hdead]⟩, rfl⟩
    · intro tx hdead r3 ev2 r4 d2 hp x hmemd
      cases hg3 : HMap.get ev2.query r3.subscriptions with
      | none =>
        rw [publish_eq_of_get_none alive r3 ev2 hg3] at hp
        have hd : d2 = [] := by
          injection hp with hp
          exact (congrArg Prod.snd hp).symm
        subst hd
        cases hmemd
      | some m3 =>
        rw [publish_eq_of_get_some alive r3 ev2 m3 hg3] at hp
        have hd : d2 = (m3.filter (fun p => alive p.2.ch)).map
            (fun p => (p.2.ch, Except.ok ev2)) := by
          injection hp with hp
          exact (congrArg Prod.snd hp).symm
        subst hd
        rw [List.mem_map] at hmemd
        obtain ⟨p, hpmem, hpe⟩ := hmemd
        have hch : p.2.ch = tx.ch := congrArg Prod.fst hpe
        have halive : alive p.2.ch = true := by
          have := (List.mem_filter.mp hpmem).2
          simpa using this
        rw [hch] at halive
        rw [halive] at hdead
        cases hdead

/-- Witness for C2: one alive and one dropped sink under the published
query; the alive one is delivered to, the dropped one is evicted. -/
theorem publish_fanout_witness :
    SubscriptionRouter.publish (fun n => decide (n = 0))
        ⟨[("q", [(⟨"a"⟩, ⟨0⟩), (⟨"b"⟩, ⟨1⟩)])], [], []⟩ ⟨"q", 5⟩ =
      some (⟨[("q", [(⟨"a"⟩, ⟨0⟩)])], [], []⟩, [(0, Except.ok ⟨"q", 5⟩)]) ∧
    HMap.contains_key ⟨"b"⟩ ([(⟨"a"⟩, ⟨0⟩)] : HMap SubscriptionId ChannelTx) =
      false := by
  obtain ⟨hnone, hsome⟩ := publish_fanout_spec (fun n => decide (n = 0))
    ⟨[("q", [(⟨"a"⟩, ⟨0⟩), (⟨"b"⟩, ⟨1⟩)])], [], []⟩ ⟨"q", 5⟩
  obtain ⟨r2, heq, hrem, hsub⟩ := hsome [(⟨"a"⟩, ⟨0⟩), (⟨"b"⟩, ⟨1⟩)] rfl
  have hpub : SubscriptionRouter.publish (fun n => decide (n = 0))
      ⟨[("q", [(⟨"a"⟩, ⟨0⟩), (⟨"b"⟩, ⟨1⟩)])], [], []⟩ ⟨"q", 5⟩ =
      some (⟨[("q", [(⟨"a"⟩, ⟨0⟩)])], [], []⟩, [(0, Except.ok ⟨"q", 5⟩)]) := rfl
  refine ⟨hpub, ?_⟩
  have hr2 : r2 = ⟨[("q", [(⟨"a"⟩, ⟨0⟩)])], [], []⟩ := by
    rw [heq] at hpub
    injection hpub with hpub
    exact congrArg Prod.fst hpub
  exact hrem ⟨"b"⟩ ⟨1⟩ (by simp) rfl [(⟨"a"⟩, ⟨0⟩)] (by rw [hr2]; rfl)

/-- C3: after `pending_add` and before `confirm_add`, publishing an event
with the pending subscription's query enqueues nothing on the pending
entry's `event_tx` (given that this sender, freshly created by the
subscribe flow, is not also registered in the active table under that
query). -/
theorem pending_add_publish_no_delivery (r : SubscriptionRouter)
    (req : String) (sid : SubscriptionId) (q : String) (etx rtx : ChannelTx)
    (alive : Nat → Bool) (ev : Event) (hq : ev.query = q)
    (hfresh : ∀ m, HMap.get ev.query r.subscriptions = some m →
      ∀ id tx, (id, tx) ∈ m → tx.ch ≠ etx.ch) :
    ∀ r2 d, SubscriptionRouter.publish alive
        (r.pending_add req sid q etx rtx) ev = some (r2, d) →
      ∀ x, (etx.ch, x) ∉ d := by
  intro r2 d hp x hmem
  cases hg : HMap.get ev.query r.subscriptions with
  | none =>
    rw [publish_eq_of_get_none alive (r.pending_add req sid q etx rtx) ev hg] at hp
    have hd : d = [] := by
      injection hp with hp
      exact (congrArg Prod.snd hp).symm
    subst hd
    cases hmem
  | some m =>
    rw [publish_eq_of_get_some alive (r.pending_add req sid q etx rtx) ev m hg] at hp
    have hd : d = (m.filter (fun p => alive p.2.ch)).map
        (fun p => (p.2.ch, Except.ok ev)) := by
      injection hp with hp
      exact (congrArg Prod.snd hp).symm
    subst hd
    rw [List.mem_map] at hmem
    obtain ⟨p, hpmem, hpe⟩ := hmem
    have hch : p.2.ch = etx.ch := congrArg Prod.fst hpe
    exact hfresh m hg p.1 p.2 (List.mem_filter.mp hpmem).1 hch

/-- Witness for C3 at the concrete scenario of the router test: a pending
subscription on query `q` against an otherwise empty router. -/
theorem pending_add_publish_no_delivery_witness :
    SubscriptionRouter.publish (fun _ => true)
        (SubscriptionRouter.default.pending_add "r1" ⟨"s"⟩ "q" ⟨1⟩ ⟨2⟩) ⟨"q", 0⟩ =
      some (SubscriptionRouter.default.pending_add "r1" ⟨"s"⟩ "q" ⟨1⟩ ⟨2⟩, []) ∧
    ¬ (((1 : Nat), (Except.ok ⟨"q", 0⟩ : Result Event)) ∈
        ([] : List (Nat × Result Event))) := by
  refine ⟨rfl, ?_⟩
  exact pending_add_publish_no_delivery SubscriptionRouter.default "r1" ⟨"s"⟩ "q"
    ⟨1⟩ ⟨2⟩ (fun _ => true) ⟨"q", 0⟩ rfl
    (by intro m hm; simp [SubscriptionRouter.default, HMap.get] at hm)
    (SubscriptionRouter.default.pending_add "r1" ⟨"s"⟩ "q" ⟨1⟩ ⟨2⟩) [] rfl
    (Except.ok ⟨"q", 0⟩)

/-- C4: each of `confirm_add`, `cancel_add`, `confirm_remove` and
`cancel_remove` on a request id absent from its pending table returns a
successful result and leaves the router unchanged. -/
theorem unknown_req_id_noop (alive : Nat → Bool) (r : SubscriptionRouter)
    (req : String) (err : Error) :
    (HMap.get req r.pending_subscribe = none →
      SubscriptionRouter.confirm_add alive r req = (r, Except.ok ()) ∧
      SubscriptionRouter.cancel_add alive r req err = (r, Except.ok ())) ∧
    (HMap.get req r.pending_unsubscribe = none →
      SubscriptionRouter.confirm_remove alive r req = (r, Except.ok ()) ∧
      SubscriptionRouter.cancel_remove alive r req err = (r, Except.ok ())) := by
  constructor
  · intro h
    constructor
    · simp [SubscriptionRouter.confirm_add, h]
    · simp [SubscriptionRouter.cancel_add, h]
  · intro h
    constructor
    · simp [SubscriptionRouter.confirm_remove, h]
    · simp [SubscriptionRouter.cancel_remove, h]

/-- Witness for C4 on the default (empty) router. -/
theorem unknown_req_id_noop_witness :
    SubscriptionRouter.confirm_add (fun _ => true) SubscriptionRouter.default "x" =
      (SubscriptionRouter.default, Except.ok ()) ∧
    SubscriptionRouter.cancel_remove (fun _ => true) SubscriptionRouter.default "x"
        (Error.client_internal_error "e") =
      (SubscriptionRouter.default, Except.ok ()) := by
  obtain ⟨h1, h2⟩ := unknown_req_id_noop (fun _ => true) SubscriptionRouter.default
    "x" (Error.client_internal_error "e")
  exact ⟨(h1 rfl).1, (h2 rfl).2⟩

/-- C5: `subscription_state` returns exactly one of the four states, in the
priority order Pending (in `pending_subscribe`), else Cancelling (in
`pending_unsubscribe`), else Active (`SubscriptionId::from(req_id)` is a
key of some inner map of the active table), else NotFound. -/
theorem subscription_state_priority (r : SubscriptionRouter) (req : String) :
    (r.subscription_state req = SubscriptionState.Pending ↔
      HMap.contains_key req r.pending_subscribe = true) ∧
    (r.subscription_state req = SubscriptionState.Cancelling ↔
      (HMap.contains_key req r.pending_subscribe = false ∧
       HMap.contains_key req r.pending_unsubscribe = true)) ∧
    (r.subscription_state req = SubscriptionState.Active ↔
      (HMap.contains_key req r.pending_subscribe = false ∧
       HMap.contains_key req r.pending_unsubscribe = false ∧
       r.is_active (SubscriptionId.from_string req) = true)) ∧
    (r.subscription_state req = SubscriptionState.NotFound ↔
      (HMap.contains_key req r.pending_subscribe = false ∧
       HMap.contains_key req r.pending_unsubscribe = false ∧
       r.is_active (SubscriptionId.from_string req) = false)) := by
  unfold SubscriptionRouter.subscription_state
  cases h1 : HMap.contains_key req r.pending_subscribe <;>
    cases h2 : HMap.contains_key req r.pending_unsubscribe <;>
      cases h3 : r.is_active (SubscriptionId.from_string req) <;>
        simp

/-- Witness for C5: a freshly pending request is reported `Pending`. -/
theorem subscription_state_priority_witness :
    (SubscriptionRouter.default.pending_add "r1" ⟨"s"⟩ "q" ⟨1⟩ ⟨2⟩).subscription_state
      "r1" = SubscriptionState.Pending :=
  (subscription_state_priority
    (SubscriptionRouter.default.pending_add "r1" ⟨"s"⟩ "q" ⟨1⟩ ⟨2⟩) "r1").1.mpr rfl

/-- C6: converting a `SubscriptionId` to a JSON-RPC ID yields a string-typed
ID holding its textual form, and converting back succeeds with the same
id. -/
theorem subscription_id_rpc_roundtrip (id : SubscriptionId) :
    SubscriptionId.into_id id = Id.Str (SubscriptionId.render id) ∧
    Id.try_into (SubscriptionId.into_id id) = Except.ok id := by
  cases id
  exact ⟨rfl, rfl⟩

/-- C7: conversion from a JSON-RPC ID to a `SubscriptionId` succeeds on
string ids (taken directly) and integer ids (decimal rendering), and fails
exactly on the absent (`None`) variant. -/
theorem rpc_id_conversion (id : Id) :
    (∀ s, Id.try_into (Id.Str s) = Except.ok ⟨s⟩) ∧
    (∀ i : Int, Id.try_into (Id.Num i) = Except.ok ⟨toString i⟩) ∧
    ((∃ e, Id.try_into id = Except.error e) ↔ id = Id.None) := by
  refine ⟨fun s => rfl, fun i => rfl, ?_⟩
  cases id with
  | Str s => simp [Id.try_into]
  | Num i => simp [Id.try_into]
  | None => simp [Id.try_into]

/-- Witness for C7 at a concrete integer id. -/
theorem rpc_id_conversion_witness :
    Id.try_into (Id.Num 42) = Except.ok ⟨"42"⟩ := by
  rw [(rpc_id_conversion (Id.Num 42)).2.1 42]
  rfl

/-- C8: `publish` never panics: the embedded `publish`, whose `none` result
marks exactly the `.unwrap()` panic on the re-lookup of `ev.query`, always
returns `some`. -/
theorem publish_no_panic (alive : Nat → Bool) (r : SubscriptionRouter)
    (ev : Event) : (SubscriptionRouter.publish alive r ev).isSome = true := by
  cases hg : HMap.get ev.query r.subscriptions with
  | none => rw [publish_eq_of_get_none alive r ev hg]; rfl
  | some m => rw [publish_eq_of_get_some alive r ev m hg]; rfl

/-- C9: `confirm_add` on a present pending entry is not atomic on error: it
installs the subscription via `add` before sending on `result_tx`, so when
that send fails (receiver dropped) the call returns an error while the
subscription is nevertheless active and the pending entry is gone. -/
theorem confirm_add_nonatomic (alive : Nat → Bool) (r : SubscriptionRouter)
    (req : String) (ps : PendingSubscribe)
    (hget : HMap.get req r.pending_subscribe = some ps)
    (hdead : alive ps.result_tx.ch = false) :
    ∃ r2 e, SubscriptionRouter.confirm_add alive r req = (r2, Except.error e) ∧
      r2.is_active ps.id = true ∧
      HMap.get req r2.pending_subscribe = none := by
  have hsend : ChannelTx.send alive ps.result_tx =
      Except.error (Error.client_internal_error "failed to send message to channel") := by
    simp [ChannelTx.send, hdead]
  refine ⟨SubscriptionRouter.add
      { r with pending_subscribe := HMap.remove req r.pending_subscribe }
      ps.id ps.query ps.event_tx,
    Error.client_internal_error "failed to send message to channel", ?_, ?_, ?_⟩
  · simp [SubscriptionRouter.confirm_add, hget, hsend]
  · exact is_active_add
      { r with pending_subscribe := HMap.remove req r.pending_subscribe }
      ps.id ps.query ps.event_tx
  · show HMap.get req (HMap.remove req r.pending_subscribe) = none
    rw [HMap.get_remove]
    simp

/-- Witness for C9: a single pending entry whose result channel receiver is
gone. -/
theorem confirm_add_nonatomic_witness :
    ((SubscriptionRouter.confirm_add (fun _ => false)
        ⟨[], [("r1", ⟨⟨"s"⟩, "q", ⟨0⟩, ⟨1⟩⟩)], []⟩ "r1").1).is_active ⟨"s"⟩ =
      true ∧
    ((SubscriptionRouter.confirm_add (fun _ => false)
        ⟨[], [("r1", ⟨⟨"s"⟩, "q", ⟨0⟩, ⟨1⟩⟩)], []⟩ "r1").2).isOk = false := by
  obtain ⟨r2, e, heq, hact, hpend⟩ := confirm_add_nonatomic (fun _ => false)
    ⟨[], [("r1", ⟨⟨"s"⟩, "q", ⟨0⟩, ⟨1⟩⟩)], []⟩ "r1" ⟨⟨"s"⟩, "q", ⟨0⟩, ⟨1⟩⟩ rfl rfl
  rw [heq]
  exact ⟨hact, rfl⟩

/-- C10: the round trip on the JSON-RPC ID side is not the identity for
integer ids: `Num i` converts to the subscription id rendering `i` in
decimal, which converts back to `Str (toString i)`, never to `Num i`;
string ids round-trip to themselves. -/
theorem rpc_id_roundtrip_normalizes :
    (∀ i : Int, (Id.try_into (Id.Num i)).map SubscriptionId.into_id =
        Except.ok (Id.Str (toString i)) ∧ Id.Str (toString i) ≠ Id.Num i) ∧
    (∀ s, (Id.try_into (Id.Str s)).map SubscriptionId.into_id =
      Except.ok (Id.Str s)) := by
  refine ⟨fun i => ⟨rfl, ?_⟩, fun s => rfl⟩
  intro h
  cases h

/-- Witness for C10 at a concrete integer id. -/
theorem rpc_id_roundtrip_normalizes_witness :
    (Id.try_into (Id.Num 7)).map SubscriptionId.into_id =
      Except.ok (Id.Str "7") := by
  rw [(rpc_id_roundtrip_normalizes.1 7).1]
  rfl

end TendermintRPC
